import Mathlib

/-!
Shallow embedding of the concurrency core of a terminal chat client
(keybase-chat-tui): the shared data types (src/types.rs), the application
state with its observer notifications (src/state.rs), the controller's
event handling (src/controller.rs), and the JSON command built by the
client facade (src/client.rs).

Subprocess I/O is not modelled; instead, the calls the controller issues
to the client (fetch_messages / send_message) are recorded as an explicit
list of emitted `ClientCall`s, and observer notifications are recorded as
a list of (observer index, notification) pairs, one entry per registered
observer per fired event, in registration order.
-/

namespace Keybase

/-- Membership kind of a channel: serde renames `User` to "impteamnative"
and `Team` to "team" (src/types.rs, enum MemberType). -/
inductive MemberType where
  | User
  | Team
deriving DecidableEq, Repr

/-- Channel descriptor (src/types.rs, struct Channel): name, topic qualifier
(serde default ""), membership kind. -/
structure Channel where
  name : String
  topic_name : String
  members_type : MemberType
deriving DecidableEq, Repr

/-- Raw conversation as returned by the backend (src/types.rs,
struct KeybaseConversation). -/
structure KeybaseConversation where
  id : String
  channel : Channel
  unread : Bool
deriving DecidableEq, Repr

/-- Body of a text message (src/types.rs, struct MessageBody). -/
structure MessageBody where
  body : String
deriving DecidableEq, Repr

/-- Tagged union of message content variants (src/types.rs, enum MessageType). -/
inductive MessageType where
  | Join
  | Attachment
  | Metadata
  | System
  | Text (text : MessageBody)
  | Unfurl
  | Reaction
deriving DecidableEq, Repr

/-- Sender of a message (src/types.rs, struct Sender). -/
structure Sender where
  username : String
  device_name : String
deriving DecidableEq, Repr

/-- A chat message (src/types.rs, struct Message). -/
structure Message where
  channel : Channel
  content : MessageType
  sender : Sender
  conversation_id : String
deriving DecidableEq, Repr

/-- Wrapper around a message as it appears in API responses
(src/types.rs, struct MessageWrapper). -/
structure MessageWrapper where
  msg : Message
deriving DecidableEq, Repr

/-- A conversation held in application state (src/types.rs,
struct Conversation): id, fetched flag, newest-first message list, and the
raw backend data. -/
structure Conversation where
  id : String
  fetched : Bool
  messages : List Message
  data : KeybaseConversation
deriving DecidableEq, Repr

/-- Prepend a message (src/types.rs, Conversation::insert_message:
`self.messages.insert(0, message)`; messages are in time-descending order). -/
def Conversation.insert_message (c : Conversation) (message : Message) : Conversation :=
  { c with messages := message :: c.messages }

/-- Merge a fetched batch (src/types.rs, Conversation::insert_messages):
`mem::swap(&mut self.messages, &mut messages)` leaves the incoming batch in
`self.messages` and the previous contents in `messages`, then
`self.messages.extend(messages)` appends the previous contents after the
batch, so the result is the incoming batch followed by the old list. -/
def Conversation.insert_messages (c : Conversation) (messages : List Message) : Conversation :=
  { c with messages := messages ++ c.messages }

/-- Conversion from raw backend data (src/types.rs,
impl From of KeybaseConversation for Conversation): fetched starts false,
messages empty. -/
def Conversation.fromKeybase (kb : KeybaseConversation) : Conversation :=
  { id := kb.id, fetched := false, messages := [], data := kb }

/-- One observer callback of the StateObserver trait (src/state.rs):
on_conversation_change, on_conversations_added, on_message. -/
inductive Notification where
  | conversationChange (data : Conversation)
  | conversationsAdded (data : List Conversation)
  | message (data : Message) (conversation_id : String) (active : Bool)
deriving DecidableEq, Repr

/-- The state behind the ApplicationState trait (src/state.rs,
struct ApplicationStateInner). The HashMap of conversations is embedded as
an association list with unique keys (first match wins on lookup, insert
overwrites in place); the boxed observers are represented by their count,
since only the sequence of callbacks they receive is observable here. -/
structure ApplicationStateInner where
  current_conversation : Option String
  conversations : List (String × Conversation)
  observers : Nat
deriving DecidableEq, Repr

/-- Lookup in the conversation map (HashMap::get). -/
def mapLookup (m : List (String × Conversation)) (k : String) : Option Conversation :=
  match m with
  | [] => none
  | (k', v) :: rest => if k' = k then some v else mapLookup rest k

/-- Insert/overwrite in the conversation map (HashMap::insert). -/
def mapInsert (m : List (String × Conversation)) (k : String) (v : Conversation) :
    List (String × Conversation) :=
  match m with
  | [] => [(k, v)]
  | (k', v') :: rest => if k' = k then (k, v) :: rest else (k', v') :: mapInsert rest k v

/-- In-place update of one entry (HashMap::get_mut followed by a mutation). -/
def mapModify (m : List (String × Conversation)) (k : String)
    (f : Conversation → Conversation) : List (String × Conversation) :=
  match m with
  | [] => []
  | (k', v) :: rest => if k' = k then (k', f v) :: rest else (k', v) :: mapModify rest k f

/-- Firing one event to every registered observer in registration order
(`self.observers.iter_mut().for_each(...)` in src/state.rs): observer `i`
receives the event once. -/
def notifyAll (n : Nat) (ev : Notification) : List (Nat × Notification) :=
  (List.range n).map (fun i => (i, ev))

/-- The Default impl of ApplicationStateInner: no current conversation, no
conversations, no observers. -/
def ApplicationStateInner.default : ApplicationStateInner :=
  { current_conversation := none, conversations := [], observers := 0 }

/-- src/state.rs, insert_conversation: insert keyed by the conversation's id;
no observer is notified. -/
def ApplicationStateInner.insert_conversation (s : ApplicationStateInner)
    (conversation : Conversation) : ApplicationStateInner :=
  { s with conversations := mapInsert s.conversations conversation.id conversation }

/-- src/state.rs, get_current_conversation: resolve the current id, if set,
against the conversation map. -/
def ApplicationStateInner.get_current_conversation (s : ApplicationStateInner) :
    Option Conversation :=
  match s.current_conversation with
  | some id => mapLookup s.conversations id
  | none => none

/-- src/state.rs, get_conversation: plain map lookup. -/
def ApplicationStateInner.get_conversation (s : ApplicationStateInner)
    (conversation_id : String) : Option Conversation :=
  mapLookup s.conversations conversation_id

/-- src/state.rs, insert_message: compute `is_active` from the current
conversation, then, if the target conversation exists, fire on_message to
every observer and prepend the message; otherwise do nothing. -/
def ApplicationStateInner.insert_message (s : ApplicationStateInner)
    (conversation_id : String) (message : Message) :
    ApplicationStateInner × List (Nat × Notification) :=
  let is_active : Bool :=
    match s.get_current_conversation with
    | some convo => convo.id == conversation_id
    | none => false
  match mapLookup s.conversations conversation_id with
  | some _ =>
      let m := mapModify s.conversations conversation_id (fun c => c.insert_message message)
      ({ s with conversations := m },
       notifyAll s.observers (.message message conversation_id is_active))
  | none => (s, [])

/-- src/state.rs, set_current_conversation: only takes effect when the id
resolves; then the current pointer is set and on_conversation_change fires
with the resolved conversation; otherwise nothing happens. -/
def ApplicationStateInner.set_current_conversation (s : ApplicationStateInner)
    (conversation_id : String) :
    ApplicationStateInner × List (Nat × Notification) :=
  match mapLookup s.conversations conversation_id with
  | some convo =>
      ({ s with current_conversation := some conversation_id },
       notifyAll s.observers (.conversationChange convo))
  | none => (s, [])

/-- src/state.rs, set_conversations: fire on_conversations_added with the
input list to every observer, then insert each conversation keyed by its id. -/
def ApplicationStateInner.set_conversations (s : ApplicationStateInner)
    (conversations : List Conversation) :
    ApplicationStateInner × List (Nat × Notification) :=
  let m := conversations.foldl (fun acc c => mapInsert acc c.id c) s.conversations
  ({ s with conversations := m },
   notifyAll s.observers (.conversationsAdded conversations))

/-- src/state.rs, register_observer: push one more observer. -/
def ApplicationStateInner.register_observer (s : ApplicationStateInner) :
    ApplicationStateInner :=
  { s with observers := s.observers + 1 }

/-- API response variants (src/types.rs, enum ApiResponse). -/
inductive ApiResponse where
  | ConversationList (conversations : List KeybaseConversation)
  | MessageList (messages : List MessageWrapper)
  | MessageSent (message : String)
deriving DecidableEq, Repr

/-- Listener event variants (src/types.rs, enum ListenerEvent). -/
inductive ListenerEvent where
  | ChatMessage (w : MessageWrapper)
deriving DecidableEq, Repr

/-- Messages delivered on the controller's client channel
(src/types.rs, enum ClientMessage). -/
inductive ClientMessage where
  | ApiResponse (r : ApiResponse)
  | ListenerEvent (e : ListenerEvent)
deriving DecidableEq, Repr

/-- Commands delivered on the controller's UI channel
(src/types.rs, enum UiMessage). -/
inductive UiMessage where
  | SendMessage (msg : String)
  | SwitchConversation (conversation_id : String)
deriving DecidableEq, Repr

/-- A call the controller issues against the Client facade; the embedding
records these as effects instead of performing subprocess I/O. -/
inductive ClientCall where
  | fetch_messages (conversation : KeybaseConversation) (count : Nat)
  | send_message (channel : Channel) (body : String)
deriving DecidableEq, Repr

/-- Result of handling one incoming message in Controller::step
(src/controller.rs): the updated state, the client calls issued, and the
observer notifications fired, in order. -/
structure StepResult where
  state : ApplicationStateInner
  calls : List ClientCall
  notifications : List (Nat × Notification)
deriving DecidableEq, Repr

/-- The client-channel arm of the select in Controller::step
(src/controller.rs, lines 28-82). `none` models a panic: the
ConversationList branch indexes `conversations[0]` with no emptiness guard,
so an empty list is out of bounds. The MessageList branch reads the target
conversation id from the first message of a non-empty batch and merges the
batch via Conversation::insert_messages; a ChatMessage listener event goes
through ApplicationState::insert_message. -/
def handleClientMessage (s : ApplicationStateInner) (value : ClientMessage) :
    Option StepResult :=
  match value with
  | .ApiResponse (.ConversationList conversations) =>
      match conversations with
      | [] => none
      | first :: _ =>
          let calls := [ClientCall.fetch_messages first 20]
          let id := first.id
          let p1 := s.set_conversations (conversations.map Conversation.fromKeybase)
          let p2 := p1.1.set_current_conversation id
          some { state := p2.1, calls := calls, notifications := p1.2 ++ p2.2 }
  | .ApiResponse (.MessageList messages) =>
      match messages with
      | [] => some { state := s, calls := [], notifications := [] }
      | m0 :: _ =>
          let conversation_id := m0.msg.conversation_id
          match mapLookup s.conversations conversation_id with
          | some _ =>
              let m := mapModify s.conversations conversation_id
                (fun c => c.insert_messages (messages.map MessageWrapper.msg))
              some { state := { s with conversations := m }, calls := [], notifications := [] }
          | none => some { state := s, calls := [], notifications := [] }
  | .ApiResponse (.MessageSent _) =>
      some { state := s, calls := [], notifications := [] }
  | .ListenerEvent (.ChatMessage msg) =>
      let p := s.insert_message msg.msg.conversation_id msg.msg
      some { state := p.1, calls := [], notifications := p.2 }

/-- The UI-channel arm of the select in Controller::step
(src/controller.rs, lines 83-102). SendMessage resolves the current
conversation's channel; SwitchConversation looks the target up, issues a
fetch_messages call when its fetched flag is false, and sets it current.
Nothing in this branch ever writes the fetched flag. -/
def handleUiMessage (s : ApplicationStateInner) (value : UiMessage) : StepResult :=
  match value with
  | .SendMessage msg =>
      match s.get_current_conversation with
      | some convo => { state := s, calls := [ClientCall.send_message convo.data.channel msg],
                        notifications := [] }
      | none => { state := s, calls := [], notifications := [] }
  | .SwitchConversation conversation_id =>
      match mapLookup s.conversations conversation_id with
      | some convo =>
          let calls := if convo.fetched then [] else [ClientCall.fetch_messages convo.data 20]
          let p := s.set_current_conversation conversation_id
          { state := p.1, calls := calls, notifications := p.2 }
      | none => { state := s, calls := [], notifications := [] }

/-- Minimal JSON values, as built by the serde_json `json!` macro in
src/client.rs; only the shapes this client produces are needed. -/
inductive Json where
  | str (s : String)
  | num (n : Nat)
  | obj (fields : List (String × Json))

/-- Serde serialization of MemberType (src/types.rs): the variants are
renamed "impteamnative" and "team". -/
def MemberType.serialized : MemberType → String
  | .User => "impteamnative"
  | .Team => "team"

/-- Serde serialization of Channel (src/types.rs, derive Serialize): all
three fields are emitted in declaration order; the serde `default`
attribute on topic_name applies only to deserialization, so an empty
topic_name is still serialized. -/
def Channel.toJson (c : Channel) : Json :=
  .obj [("name", .str c.name), ("topic_name", .str c.topic_name),
        ("members_type", .str c.members_type.serialized)]

/-- The JSON command built by Client::send_message
(src/client.rs, lines 92-105). -/
def send_message_command (channel : Channel) (message : String) : Json :=
  .obj [("method", .str "send"),
        ("params", .obj [("options", .obj [
            ("channel", channel.toJson),
            ("message", .obj [("body", .str message)])])])]

/-- The exact JSON value the specification claims the send command
serializes to for channel name "chan", members_type "team", body "hi":
no topic_name field in the channel object. Written from the spec text, to
be compared against `send_message_command`. -/
def specClaimedSendJson : Json :=
  .obj [("method", .str "send"),
        ("params", .obj [("options", .obj [
            ("channel", .obj [("name", .str "chan"), ("members_type", .str "team")]),
            ("message", .obj [("body", .str "hi")])])])]

/-- Map well-formedness: every entry of the conversation map stores a
conversation whose id equals its key. Reachable states have this shape
because both insertion paths key by the conversation's own id. -/
def WFIdsB (s : ApplicationStateInner) : Bool :=
  s.conversations.all (fun p => p.2.id == p.1)

/-- The data-model invariant of the spec: the current conversation id, if
set, resolves to a live entry of the conversation map. -/
def CurrentOkB (s : ApplicationStateInner) : Bool :=
  match s.current_conversation with
  | none => true
  | some id => (mapLookup s.conversations id).isSome

/-- Last conversation of a list carrying a given id, if any: the value that
survives when the list is inserted into a map left to right. -/
def lastById : List Conversation → String → Option Conversation
  | [], _ => none
  | c :: rest, id =>
      match lastById rest id with
      | some x => some x
      | none => if c.id = id then some c else none

/-- Fixture: a raw conversation with id "A" (mirrors the repository's own
test fixture `conversation!`). -/
def convoA : KeybaseConversation :=
  { id := "A", channel := { name := "chan", topic_name := "", members_type := .User },
    unread := false }

/-- Fixture: a raw conversation with id "B". -/
def convoB : KeybaseConversation :=
  { id := "B", channel := { name := "chanb", topic_name := "", members_type := .User },
    unread := false }

/-- Fixture: a text message in conversation "A" (mirrors the repository's
own test fixture `message!`). -/
def msgA : Message :=
  { channel := convoA.channel, content := .Text { body := "m1" },
    sender := { username := "Some Guy", device_name := "My Device" },
    conversation_id := "A" }

/-- Fixture: second text message in conversation "A". -/
def msgB : Message :=
  { channel := convoA.channel, content := .Text { body := "m2" },
    sender := { username := "Some Guy", device_name := "My Device" },
    conversation_id := "A" }

/-- Fixture: a state holding the single unfetched conversation "A". -/
def stateA : ApplicationStateInner :=
  ApplicationStateInner.default.insert_conversation (Conversation.fromKeybase convoA)

/-- Fixture: a state holding conversations "A" and "B", current "B", one
registered observer. -/
def stateAB : ApplicationStateInner :=
  { current_conversation := some "B",
    conversations := [("A", Conversation.fromKeybase convoA),
                      ("B", Conversation.fromKeybase convoB)],
    observers := 1 }

/-- Lookup after insert: the inserted key now maps to the inserted value,
all other keys are unchanged. -/
theorem mapLookup_mapInsert (m : List (String × Conversation)) (k id : String)
    (v : Conversation) :
    mapLookup (mapInsert m k v) id = if k = id then some v else mapLookup m id := by
  induction m with
  | nil =>
      simp [mapLookup, mapInsert]
  | cons p rest ih =>
      obtain ⟨k', v'⟩ := p
      by_cases h1 : k' = k
      · subst h1
        by_cases h2 : k' = id <;> simp [mapLookup, mapInsert, h2]
      · by_cases h2 : k' = id
        · subst h2
          have h3 : ¬ k = k' := fun h => h1 h.symm
          simp [mapLookup, mapInsert, h1, h3]
        · simp [mapLookup, mapInsert, h1, h2, ih]

/-- Lookup after an in-place update: the updated key's value goes through
the update function, all other keys are unchanged. -/
theorem mapLookup_mapModify (m : List (String × Conversation)) (k id : String)
    (f : Conversation → Conversation) :
    mapLookup (mapModify m k f) id
      = if k = id then (mapLookup m id).map f else mapLookup m id := by
  induction m with
  | nil =>
      simp [mapLookup, mapModify]
  | cons p rest ih =>
      obtain ⟨k', v'⟩ := p
      by_cases h1 : k' = k
      · subst h1
        by_cases h2 : k' = id <;> simp [mapLookup, mapModify, h2]
      · by_cases h2 : k' = id
        · subst h2
          have h3 : ¬ k = k' := fun h => h1 h.symm
          simp [mapLookup, mapModify, h1, h3]
        · simp [mapLookup, mapModify, h1, h2, ih]

/-- A successful lookup is a membership witness. -/
theorem mapLookup_mem (m : List (String × Conversation)) (k : String) (v : Conversation)
    (h : mapLookup m k = some v) : (k, v) ∈ m := by
  induction m with
  | nil => simp [mapLookup] at h
  | cons p rest ih =>
      obtain ⟨k', v'⟩ := p
      by_cases h1 : k' = k
      · subst h1
        simp [mapLookup] at h
        subst h
        exact List.mem_cons_self _ _
      · simp [mapLookup, h1] at h
        exact List.mem_cons_of_mem _ (ih h)

/-- Folding a list of conversations into the map by id: lookup afterwards
returns the last conversation of the list carrying that id, and falls back
to the original map when the list has none. -/
theorem mapLookup_foldl_insert (list : List Conversation) :
    ∀ (m : List (String × Conversation)) (id : String),
      mapLookup (list.foldl (fun acc c => mapInsert acc c.id c) m) id =
        match lastById list id with
        | some c => some c
        | none => mapLookup m id := by
  induction list with
  | nil =>
      intro m id
      simp [lastById]
  | cons c rest ih =>
      intro m id
      have h := ih (mapInsert m c.id c) id
      rw [List.foldl_cons, h]
      cases hrest : lastById rest id with
      | some x => simp [lastById, hrest]
      | none =>
          rw [mapLookup_mapInsert]
          by_cases hc : c.id = id <;> simp [lastById, hrest, hc]

/-- A list whose head carries the requested id always has a last
conversation with that id. -/
theorem lastById_cons_self (c : Conversation) (rest : List Conversation) (id : String)
    (h : c.id = id) : ∃ x, lastById (c :: rest) id = some x := by
  cases hrest : lastById rest id with
  | some x => exact ⟨x, by simp [lastById, hrest]⟩
  | none => exact ⟨c, by simp [lastById, hrest, h]⟩

/-- State component of insert_message on an existing target: the stored
conversation gets the message prepended. -/
theorem insert_message_state (s : ApplicationStateInner) (cid : String) (m : Message)
    (convo : Conversation) (h : mapLookup s.conversations cid = some convo) :
    mapLookup (s.insert_message cid m).1.conversations cid
      = some (convo.insert_message m) := by
  simp [ApplicationStateInner.insert_message, h, mapLookup_mapModify]

/-- Unfolded reading of the current-conversation invariant. -/
theorem currentOkB_iff (s : ApplicationStateInner) :
    CurrentOkB s = true ↔
      ∀ id, s.current_conversation = some id → (mapLookup s.conversations id).isSome = true := by
  cases h : s.current_conversation with
  | none => simp [CurrentOkB, h]
  | some a => simp [CurrentOkB, h]

/-- Claim C1, the code evaluated at the failing input: switching to the
existing unfetched conversation "A" issues the fetch_messages call but
leaves the fetched flag false, and an immediately repeated switch to "A"
issues the same fetch_messages call a second time — the controller never
sets the fetched flag to true, so the claimed "exactly one fetch per
conversation" caching does not hold. -/
theorem switchConversation_never_marks_fetched :
    (handleUiMessage stateA (.SwitchConversation "A")).calls
      = [ClientCall.fetch_messages convoA 20] ∧
    ((handleUiMessage stateA (.SwitchConversation "A")).state.get_conversation "A").map
        Conversation.fetched = some false ∧
    (handleUiMessage (handleUiMessage stateA (.SwitchConversation "A")).state
        (.SwitchConversation "A")).calls = [ClientCall.fetch_messages convoA 20] := by
  refine ⟨rfl, rfl, rfl⟩

/-- Claim C2 counterexample: processing the ConversationList response
holding the single conversation "A" from the default state issues a
fetch_messages call during that processing, refuting "it issues no
fetch_messages call during this processing". -/
theorem conversationList_issues_fetch :
    (handleClientMessage ApplicationStateInner.default
        (.ApiResponse (.ConversationList [convoA]))).map StepResult.calls
      = some [ClientCall.fetch_messages convoA 20] ∧
    some [ClientCall.fetch_messages convoA 20] ≠ some ([] : List ClientCall) := by
  refine ⟨rfl, by simp⟩

/-- Claim C2 as amended: processing a non-empty ConversationList response
bulk-loads the list into the state (each entry keyed by its id, later
duplicates winning, other ids untouched), sets the first entry as current,
and issues exactly one fetch_messages call, namely for the first
conversation of the list with count 20. -/
theorem conversationList_spec (s : ApplicationStateInner)
    (first : KeybaseConversation) (rest : List KeybaseConversation) :
    ∃ r : StepResult,
      handleClientMessage s (.ApiResponse (.ConversationList (first :: rest))) = some r ∧
      r.calls = [ClientCall.fetch_messages first 20] ∧
      r.state.current_conversation = some first.id ∧
      ∀ id, mapLookup r.state.conversations id =
        match lastById ((first :: rest).map Conversation.fromKeybase) id with
        | some c => some c
        | none => mapLookup s.conversations id := by
  simp only [List.map_cons]
  obtain ⟨x, hx⟩ := lastById_cons_self (Conversation.fromKeybase first)
      (rest.map Conversation.fromKeybase) first.id rfl
  have hfold : ∀ id,
      mapLookup ((s.set_conversations (Conversation.fromKeybase first
            :: rest.map Conversation.fromKeybase)).1.conversations) id
        = match lastById (Conversation.fromKeybase first
              :: rest.map Conversation.fromKeybase) id with
          | some c => some c
          | none => mapLookup s.conversations id := by
    intro id
    simpa [ApplicationStateInner.set_conversations] using
      mapLookup_foldl_insert (Conversation.fromKeybase first
        :: rest.map Conversation.fromKeybase) s.conversations id
  have hlook :
      mapLookup ((s.set_conversations (Conversation.fromKeybase first
          :: rest.map Conversation.fromKeybase)).1.conversations) first.id = some x := by
    rw [hfold first.id, hx]
  refine ⟨_, rfl, rfl, ?_, ?_⟩
  · show ((s.set_conversations (Conversation.fromKeybase first
        :: rest.map Conversation.fromKeybase)).1.set_current_conversation
        first.id).1.current_conversation = some first.id
    simp [ApplicationStateInner.set_current_conversation, hlook]
  · intro id
    show mapLookup ((s.set_conversations (Conversation.fromKeybase first
        :: rest.map Conversation.fromKeybase)).1.set_current_conversation
        first.id).1.conversations id = _
    rw [show ((s.set_conversations (Conversation.fromKeybase first
        :: rest.map Conversation.fromKeybase)).1.set_current_conversation
        first.id).1.conversations
      = (s.set_conversations (Conversation.fromKeybase first
          :: rest.map Conversation.fromKeybase)).1.conversations from by
        simp [ApplicationStateInner.set_current_conversation, hlook]]
    exact hfold id

/-- Claim C3 counterexample: merging the fetched batch [msgB] into a
conversation whose existing list is [msgA] yields [msgB, msgA], not the
claimed existing-first order [msgA] ++ [msgB]. -/
theorem insert_messages_not_existing_first :
    (({ Conversation.fromKeybase convoA with messages := [msgA] }).insert_messages
        [msgB]).messages ≠ [msgA] ++ [msgB] := by
  decide

/-- Claim C3 as amended: merging a fetched batch places the batch ahead of
the previously existing entries: through the controller's MessageList
handling, the stored list of the target conversation becomes the fetched
batch followed by the existing list (B ++ E, not E ++ B). -/
theorem insert_messages_batch_first (s : ApplicationStateInner) (convo : Conversation)
    (m0 : MessageWrapper) (rest : List MessageWrapper)
    (h : mapLookup s.conversations m0.msg.conversation_id = some convo) :
    ∃ r : StepResult,
      handleClientMessage s (.ApiResponse (.MessageList (m0 :: rest))) = some r ∧
      mapLookup r.state.conversations m0.msg.conversation_id
        = some { convo with
                 messages := ((m0 :: rest).map MessageWrapper.msg) ++ convo.messages } := by
  refine ⟨{ state := { s with conversations := (mapModify s.conversations m0.msg.conversation_id
                (fun c => c.insert_messages ((m0 :: rest).map MessageWrapper.msg))) },
            calls := [], notifications := [] }, ?_, ?_⟩
  · simp [handleClientMessage, h]
  · simp [mapLookup_mapModify, h, Conversation.insert_messages]

/-- Claim C3 witness: the amended merge theorem applied to the state
holding conversation "A" with no messages and the one-element batch
[msgA]. -/
theorem insert_messages_batch_first_witness :
    ∃ r : StepResult,
      handleClientMessage stateA (.ApiResponse (.MessageList [⟨msgA⟩])) = some r ∧
      mapLookup r.state.conversations (MessageWrapper.mk msgA).msg.conversation_id
        = some { Conversation.fromKeybase convoA with
                 messages := (([⟨msgA⟩] : List MessageWrapper).map MessageWrapper.msg)
                   ++ (Conversation.fromKeybase convoA).messages } :=
  insert_messages_batch_first stateA (Conversation.fromKeybase convoA) ⟨msgA⟩ [] (by decide)

/-- Claim C5 counterexample: the send command the client builds for channel
name "chan", members_type team, empty topic qualifier, and body "hi" is not
the JSON value the specification claims, because the channel object also
carries the serialized empty topic_name field (the serde default attribute
only applies to deserialization). -/
theorem send_command_not_spec_json :
    send_message_command { name := "chan", topic_name := "", members_type := .Team } "hi"
      ≠ specClaimedSendJson := by
  simp [send_message_command, specClaimedSendJson, Channel.toJson, MemberType.serialized]

/-- Claim C5 as amended: the send command for that channel and body
serializes to the claimed JSON with one change: the channel object
additionally contains the field "topic_name" with value "", so the full
value is method "send", params.options.channel = \x7bname "chan",
topic_name "", members_type "team"\x7d, params.options.message.body "hi",
and no other fields. -/
theorem send_command_serialization :
    send_message_command { name := "chan", topic_name := "", members_type := .Team } "hi"
      = Json.obj [("method", .str "send"),
          ("params", .obj [("options", .obj [
              ("channel", .obj [("name", .str "chan"), ("topic_name", .str ""),
                                ("members_type", .str "team")]),
              ("message", .obj [("body", .str "hi")])])])] := rfl

/-- Claim C4: the controller's ConversationList handling is total only for
non-empty lists: on the empty list the code indexes conversations[0]
without a guard, embedded as the handler returning none (the out-of-bounds
branch is reachable), while every non-empty list produces a result. -/
theorem conversationList_empty_is_partial (s : ApplicationStateInner) :
    handleClientMessage s (.ApiResponse (.ConversationList [])) = none ∧
    ∀ (first : KeybaseConversation) (rest : List KeybaseConversation),
      (handleClientMessage s (.ApiResponse (.ConversationList (first :: rest)))).isSome
        = true := by
  refine ⟨rfl, ?_⟩
  intro first rest
  simp [handleClientMessage]

/-- Claim C6: two successive insert_message calls into a conversation the
state contains prepend their messages at the front, newest first: the
stored list becomes m2, then m1, then whatever the list was before. -/
theorem insert_message_prepend_law (s : ApplicationStateInner) (cid : String)
    (convo : Conversation) (m1 m2 : Message)
    (h : s.get_conversation cid = some convo) :
    ((s.insert_message cid m1).1.insert_message cid m2).1.get_conversation cid
      = some { convo with messages := m2 :: m1 :: convo.messages } := by
  have h0 : mapLookup s.conversations cid = some convo := h
  have h1 := insert_message_state s cid m1 convo h0
  have h2 := insert_message_state (s.insert_message cid m1).1 cid m2 _ h1
  show mapLookup ((s.insert_message cid m1).1.insert_message cid m2).1.conversations cid = _
  rw [h2]
  rfl

/-- Claim C6 witness: the prepend law applied to the state holding
conversation "A" with the two concrete messages msgA then msgB. -/
theorem insert_message_prepend_law_witness :
    ((stateA.insert_message "A" msgA).1.insert_message "A" msgB).1.get_conversation "A"
      = some { Conversation.fromKeybase convoA with
               messages := msgB :: msgA :: (Conversation.fromKeybase convoA).messages } :=
  insert_message_prepend_law stateA "A" (Conversation.fromKeybase convoA) msgA msgB (by decide)

/-- Claim C7: set_current_conversation with an id that does not resolve
leaves the entire state unchanged and fires nothing; with an id that does
resolve it sets the current pointer to that id and fires
on_conversation_change with the resolved conversation to every observer. -/
theorem set_current_conversation_spec (s : ApplicationStateInner) (conversation_id : String) :
    (s.get_conversation conversation_id = none →
      s.set_current_conversation conversation_id = (s, [])) ∧
    (∀ convo, s.get_conversation conversation_id = some convo →
      s.set_current_conversation conversation_id
        = ({ s with current_conversation := some conversation_id },
           notifyAll s.observers (.conversationChange convo))) := by
  constructor
  · intro h
    have h0 : mapLookup s.conversations conversation_id = none := h
    simp [ApplicationStateInner.set_current_conversation, h0]
  · intro convo h
    have h0 : mapLookup s.conversations conversation_id = some convo := h
    simp [ApplicationStateInner.set_current_conversation, h0]

/-- Claim C7 witness: the no-op half at the unknown id "zzz" and the
success half at the known id "A", both on the state holding conversation
"A". -/
theorem set_current_conversation_spec_witness :
    stateA.set_current_conversation "zzz" = (stateA, []) ∧
    stateA.set_current_conversation "A"
      = ({ stateA with current_conversation := some "A" },
         notifyAll stateA.observers (.conversationChange (Conversation.fromKeybase convoA))) :=
  ⟨(set_current_conversation_spec stateA "zzz").1 (by decide),
   (set_current_conversation_spec stateA "A").2 (Conversation.fromKeybase convoA) (by decide)⟩

/-- Claim C8: set_conversations fires on_conversations_added exactly once
per registered observer, in registration order, with exactly the input
list as argument, and then inserts/overwrites each conversation of the
list keyed by its id (the last occurrence of an id wins, ids not in the
list are untouched); the current pointer is untouched. -/
theorem set_conversations_spec (s : ApplicationStateInner) (list : List Conversation) :
    (s.set_conversations list).2
      = (List.range s.observers).map (fun i => (i, Notification.conversationsAdded list)) ∧
    (∀ id, mapLookup (s.set_conversations list).1.conversations id =
        match lastById list id with
        | some c => some c
        | none => mapLookup s.conversations id) ∧
    (s.set_conversations list).1.current_conversation = s.current_conversation := by
  refine ⟨rfl, ?_, rfl⟩
  intro id
  simpa [ApplicationStateInner.set_conversations] using
    mapLookup_foldl_insert list s.conversations id

/-- Claim C9: on a state whose map stores each conversation under its own
id and whose current id (if set) resolves, insert_message into an existing
conversation fires on_message to every observer with active true exactly
when the target id is the current conversation id and false otherwise;
into a missing conversation it leaves the state unchanged and fires
nothing. -/
theorem insert_message_active_spec (s : ApplicationStateInner) (cid : String)
    (message : Message) (hwf : WFIdsB s = true) (hcur : CurrentOkB s = true) :
    ((s.get_conversation cid).isSome = true →
      (s.insert_message cid message).2
        = notifyAll s.observers
            (.message message cid (decide (s.current_conversation = some cid)))) ∧
    (s.get_conversation cid = none → s.insert_message cid message = (s, [])) := by
  constructor
  · intro hsome
    obtain ⟨convo, h0⟩ := Option.isSome_iff_exists.mp hsome
    have h0' : mapLookup s.conversations cid = some convo := h0
    cases hc : s.current_conversation with
    | none =>
        simp [ApplicationStateInner.insert_message,
          ApplicationStateInner.get_current_conversation, hc, h0']
    | some cur =>
        have hsome2 : (mapLookup s.conversations cur).isSome = true :=
          (currentOkB_iff s).mp hcur cur hc
        obtain ⟨cv, hcv⟩ := Option.isSome_iff_exists.mp hsome2
        have hmem := mapLookup_mem _ _ _ hcv
        have hid : cv.id = cur := by
          have hall := List.all_eq_true.mp hwf (cur, cv) hmem
          exact eq_of_beq hall
        by_cases heq : cur = cid
        · have hmem0 := mapLookup_mem _ _ _ h0'
          have hid0 : convo.id = cid := by
            have hall := List.all_eq_true.mp hwf (cid, convo) hmem0
            exact eq_of_beq hall
          simp [ApplicationStateInner.insert_message,
            ApplicationStateInner.get_current_conversation, hc, h0', hcv, hid, heq, hid0]
        · have hb : (cur == cid) = false := beq_eq_false_iff_ne.mpr heq
          simp [ApplicationStateInner.insert_message,
            ApplicationStateInner.get_current_conversation, hc, h0', hcv, hid, heq, hb]
  · intro hnone
    have h0 : mapLookup s.conversations cid = none := hnone
    simp [ApplicationStateInner.insert_message, h0]

/-- Claim C9 witness: inserting a message into conversation "B" of the
two-conversation state whose current conversation is "B" fires on_message
with active computed from the current pointer (true here) to its one
observer. -/
theorem insert_message_active_spec_witness :
    (stateAB.insert_message "B" msgA).2
      = notifyAll stateAB.observers
          (.message msgA "B" (decide (stateAB.current_conversation = some "B"))) :=
  (insert_message_active_spec stateAB "B" msgA (by decide) (by decide)).1 (by decide)

/-- Claim C10: the invariant "the current conversation id, if set, resolves
to a live entry of the map" holds of the default state and is preserved by
every mutator of ApplicationState: insert_conversation, insert_message,
set_current_conversation, set_conversations, and register_observer. -/
theorem current_resolves_invariant :
    CurrentOkB ApplicationStateInner.default = true ∧
    (∀ s c, CurrentOkB s = true → CurrentOkB (s.insert_conversation c) = true) ∧
    (∀ s cid m, CurrentOkB s = true → CurrentOkB (s.insert_message cid m).1 = true) ∧
    (∀ s cid, CurrentOkB s = true → CurrentOkB (s.set_current_conversation cid).1 = true) ∧
    (∀ s list, CurrentOkB s = true → CurrentOkB (s.set_conversations list).1 = true) ∧
    (∀ s, CurrentOkB s = true → CurrentOkB s.register_observer = true) := by
  refine ⟨rfl, ?_, ?_, ?_, ?_, ?_⟩
  · intro s c h
    rw [currentOkB_iff] at h ⊢
    intro id hid
    have hid' : s.current_conversation = some id := hid
    show (mapLookup (mapInsert s.conversations c.id c) id).isSome = true
    rw [mapLookup_mapInsert]
    by_cases hk : c.id = id
    · simp [hk]
    · simp [hk]
      exact h id hid'
  · intro s cid m h
    rw [currentOkB_iff] at h ⊢
    intro id hid
    cases h0 : mapLookup s.conversations cid with
    | none =>
        have hs : (s.insert_message cid m).1 = s := by
          simp [ApplicationStateInner.insert_message, h0]
        rw [hs] at hid ⊢
        exact h id hid
    | some v =>
        have hcurr : (s.insert_message cid m).1.current_conversation
            = s.current_conversation := by
          simp [ApplicationStateInner.insert_message, h0]
        have hconvs : (s.insert_message cid m).1.conversations
            = mapModify s.conversations cid (fun c => c.insert_message m) := by
          simp [ApplicationStateInner.insert_message, h0]
        rw [hcurr] at hid
        rw [hconvs, mapLookup_mapModify]
        by_cases hk : cid = id
        · obtain ⟨v2, hv2⟩ := Option.isSome_iff_exists.mp (h id hid)
          simp [hk, hv2]
        · simp [hk]
          exact h id hid
  · intro s cid h
    rw [currentOkB_iff] at h ⊢
    intro id hid
    cases h0 : mapLookup s.conversations cid with
    | none =>
        have hs : s.set_current_conversation cid = (s, []) := by
          simp [ApplicationStateInner.set_current_conversation, h0]
        rw [hs] at hid ⊢
        exact h id hid
    | some v =>
        have hcurr : (s.set_current_conversation cid).1.current_conversation
            = some cid := by
          simp [ApplicationStateInner.set_current_conversation, h0]
        have hconvs : (s.set_current_conversation cid).1.conversations
            = s.conversations := by
          simp [ApplicationStateInner.set_current_conversation, h0]
        rw [hcurr] at hid
        injection hid with hid2
        rw [hconvs, ← hid2, h0]
        rfl
  · intro s list h
    rw [currentOkB_iff] at h ⊢
    intro id hid
    have hid' : s.current_conversation = some id := hid
    have hconvs : mapLookup (s.set_conversations list).1.conversations id
        = match lastById list id with
          | some c => some c
          | none => mapLookup s.conversations id := by
      simpa [ApplicationStateInner.set_conversations] using
        mapLookup_foldl_insert list s.conversations id
    rw [hconvs]
    cases hl : lastById list id with
    | some c => simp
    | none =>
        exact h id hid'
  · intro s h
    rw [currentOkB_iff] at h ⊢
    intro id hid
    exact h id hid

/-- Claim C10 witness: the preservation conjuncts applied to the concrete
two-conversation state: after set_current_conversation "A" and after
insert_message into "A", the current pointer still resolves. -/
theorem current_resolves_invariant_witness :
    CurrentOkB (stateAB.set_current_conversation "A").1 = true ∧
    CurrentOkB (stateAB.insert_message "A" msgA).1 = true :=
  ⟨current_resolves_invariant.2.2.2.1 stateAB "A" (by decide),
   current_resolves_invariant.2.2.1 stateAB "A" msgA (by decide)⟩

end Keybase
